import Mathlib

/-!
Verification of the smart-receipts core: receipt-key construction (frontend),
the persisted schema defaults, and the OAuth/upload-tracking core.  Pure
frontend logic and SQL schema constants are embedded directly from the
source; the backend request handlers (identity resolver, OAuth broker,
upload-tracking endpoints) are not part of the source tree, so they are
modelled from the specification, as flagged on each definition.
-/

set_option autoImplicit false

namespace SmartReceipts

/-! ## Receipt keys as constructed by the frontend (GmailSetup.tsx, UploadReceipts.tsx) -/

/-- From `GmailSetup.tsx` (`loadUploadStatuses`, `processReceipt`): the receipt key
for an email attachment is the email id, an underscore, and the attachment
filename. -/
def gmailAttachmentKey (emailId filename : String) : String :=
  emailId ++ "_" ++ filename

/-- From `GmailSetup.tsx` (`loadUploadStatuses`, `processEmailBody`): the receipt key
for a body-only email receipt is the email id followed by the literal "_body". -/
def gmailBodyKey (emailId : String) : String :=
  emailId ++ "_body"

/-- JavaScript `String.prototype.endsWith`, modelled on the character lists of the
two strings. -/
def jsEndsWith (s pat : String) : Bool :=
  pat.data.isSuffixOf s.data

/-- From `GmailSetup.tsx` (`uploadToDropbox`): the recorded source type is chosen
purely by whether the receipt key ends in "_body". -/
def gmailSourceType (receiptKey : String) : String :=
  if jsEndsWith receiptKey "_body" then "gmail_body" else "gmail_attachment"

/-- A file submitted to the direct-upload page; only its identity matters here. -/
structure FileInput where
  name : String
  mimeType : String
  content : String
deriving DecidableEq, Repr

/-- From `UploadReceipts.tsx` (`processFiles`): the `ProcessedFile` id — later passed
verbatim as `receipt_key` to `mark_receipt_uploaded` in `uploadAllToDropbox` — is
built from the current clock value and a fresh random draw.  The random draw is
abstracted by its printed decimal form; the submitted file never enters the id. -/
def uploadFileId (nowMs : Nat) (rand : String) : String :=
  toString nowMs ++ "-" ++ rand

/-- From `UploadReceipts.tsx` (`processFiles`): the key assigned to a submitted file.
The file argument is ignored by the source code, which uses only the clock and the
random draw. -/
def processFileKey (_file : FileInput) (nowMs : Nat) (rand : String) : String :=
  uploadFileId nowMs rand

/-- A concrete direct-upload input used in closed statements. -/
def sampleUpload : FileInput :=
  { name := "receipt.pdf", mimeType := "application/pdf", content := "pdfbytes" }

/-! ## Persisted folder-preference defaults (SQL schema and UploadReceipts.tsx) -/

/-- From the Supabase schema (`dropbox_folder_preferences`): the stored default
folder path, `DEFAULT '/Smart Receipts'`. -/
def folderSchemaDefault : String := "/Smart Receipts"

/-- From `UploadReceipts.tsx`: the initial local state of `folderPath`,
`useState('/Smart_Receipts')`. -/
def uploadPageLocalDefault : String := "/Smart_Receipts"

/-! ## Identity Resolver (modelled from the spec)

The backend auth middleware (`backend/databutton_app/mw/auth_mw.py`) is absent
from the source tree; only its documentation and callers are present. -/

/-- Modelled from the spec: the configured issuer's signing material, abstracted as
a verifier that yields the credential's subject exactly when the signature and
claims verify (spec 4.1). -/
structure AuthConfig where
  verify : String → Option String

/-- Outcome of identity resolution: a verified per-request identity, or rejection. -/
inductive AuthResult where
  | ok (userId : String)
  | unauthenticated
deriving DecidableEq, Repr

/-- Modelled from the spec: the Identity Resolver (absent backend
`auth_mw.py`).  Given the (possibly missing) auth configuration and the
(possibly missing) bearer credential of an inbound request, it returns the
verified identity or rejects; a missing configuration rejects every request and
there is no default identity value (spec 4.1 and design note 9). -/
def resolveIdentity (cfg : Option AuthConfig) (cred : Option String) : AuthResult :=
  match cfg with
  | none => .unauthenticated
  | some c =>
    match cred with
    | none => .unauthenticated
    | some t =>
      match c.verify t with
      | none => .unauthenticated
      | some sub => .ok sub

/-- A concrete auth configuration used in closed statements: it verifies exactly
one credential string, yielding subject "alice". -/
def sampleCfg : AuthConfig :=
  { verify := fun t => if t = "token-alice" then some "alice" else none }

/-! ## CSRF State Ledger (modelled from the spec)

The backend OAuth-state endpoints are absent from the source tree; the persisted
table (`gmail_oauth_states` / `dropbox_oauth_states`: `state_token` primary key,
`user_id`, `created_at`) and the one-hour sweep are in the SQL schema. -/

/-- A row of the OAuth-state table, as in the SQL schema. -/
structure OAuthState where
  stateToken : String
  userId : String
  createdAt : Nat
deriving DecidableEq, Repr

/-- The state table, keyed by `state_token`. -/
abbrev OAuthLedger := List OAuthState

/-- The expiry window: one hour, in seconds (SQL `INTERVAL '1 hour'`). -/
def expiryWindow : Nat := 3600

/-- Point lookup of a state row by its token. -/
def lookupState (st : OAuthLedger) (tok : String) : Option OAuthState :=
  st.find? (fun r => r.stateToken == tok)

/-- Modelled from the spec: `issue(user_id) -> state_token` stores
`(state_token, user_id, now)` (spec 4.2); the token itself is produced by the
caller's randomness and passed in here. -/
def issue (st : OAuthLedger) (tok uid : String) (now : Nat) : OAuthLedger :=
  ⟨tok, uid, now⟩ :: st

/-- Modelled from the spec: `consume(state_token)` atomically looks up and deletes
the row; it returns `NotFound` (here `none`) if the row is absent or if
`now - created_at` exceeds the expiry window, even when the expired row still
physically exists pending cleanup (spec 4.2, design note on read-time expiry). -/
def consume (st : OAuthLedger) (tok : String) (now : Nat) : Option String × OAuthLedger :=
  match lookupState st tok with
  | none => (none, st)
  | some r =>
    if expiryWindow < now - r.createdAt then (none, st)
    else (some r.userId, st.filter (fun r' => r'.stateToken != tok))

/-- From the SQL schema (`cleanup_expired_oauth_states`): delete all rows with
`created_at < now - 1 hour`. -/
def sweep (st : OAuthLedger) (now : Nat) : OAuthLedger :=
  st.filter (fun r => !(decide (r.createdAt < now - expiryWindow)))

/-! ## Credential Store and OAuth Broker callback (modelled from the spec)

The backend Dropbox/Gmail integration modules are absent from the source tree;
the credential table (`dropbox_tokens`: `user_id` primary key, `refresh_token`)
is in the SQL schema. -/

/-- The provider-credential table for one provider: `user_id` maps to the stored
token blob (`dropbox_tokens` / `gmail_tokens` rows). -/
abbrev CredStore := List (String × String)

/-- Modelled from the spec: credential `put` upserts by the `user_id` primary key,
overwriting any previous row (spec 4.4). -/
def putCred (cs : CredStore) (uid blob : String) : CredStore :=
  (uid, blob) :: cs.filter (fun p => p.1 != uid)

/-- Modelled from the spec: credential `get` by `user_id` (spec 4.4). -/
def getCred (cs : CredStore) (uid : String) : Option String :=
  (cs.find? (fun p => p.1 == uid)).map Prod.snd

/-- Result of one OAuth callback: the connected user on success, whether the
provider's token endpoint was contacted, and the resulting ledger and store. -/
structure CallbackOutcome where
  connectedUser : Option String
  exchanged : Bool
  ledger : OAuthLedger
  creds : CredStore
deriving DecidableEq, Repr

/-- Modelled from the spec: the Broker's **Callback** step (spec 4.3).  It first
calls `consume(state)`; on `NotFound` it fails without contacting the provider's
token endpoint and without touching any credential.  Otherwise it exchanges the
code exactly once (`exchange` abstracts the provider's token endpoint); an
exchange error fails without writing a credential, and success upserts the
credential row for the issuing user. -/
def callback (st : OAuthLedger) (cs : CredStore) (code tok : String) (now : Nat)
    (exchange : String → Option String) : CallbackOutcome :=
  match consume st tok now with
  | (none, st') => ⟨none, false, st', cs⟩
  | (some uid, st') =>
    match exchange code with
    | none => ⟨none, true, st', cs⟩
    | some blob => ⟨some uid, true, st', putCred cs uid blob⟩

/-! ## Upload Ledger and FolderPreference (modelled from the spec)

The backend upload-tracking endpoints are absent from the source tree; the
persisted table (`uploaded_receipts`, `UNIQUE(user_id, receipt_key)`) is in the
SQL schema, and the request shapes are in `brain/data-contracts.ts`. -/

/-- Receipt metadata carried on a ledger row (`receipt_metadata` in
`data-contracts.ts`). -/
structure Metadata where
  vendor : Option String
  date : Option String
  amount : Option String
  currency : Option String
deriving DecidableEq, Repr

/-- A row of `uploaded_receipts`, as in the SQL schema and `ReceiptUploadStatus`. -/
structure UploadRecord where
  userId : String
  receiptKey : String
  uploadedToDropbox : Bool
  uploadTimestamp : Option Nat
  dropboxPaths : List String
  receiptMetadata : Option Metadata
  sourceType : Option String
  createdAt : Nat
  updatedAt : Nat
deriving DecidableEq, Repr

/-- The body of `POST /upload-tracking/mark-uploaded` (`MarkUploadedRequest` in
`data-contracts.ts`): it has no user id field. -/
structure MarkUploadedRequest where
  receiptKey : String
  dropboxPaths : List String
  receiptMetadata : Option Metadata
  sourceType : Option String
deriving DecidableEq, Repr

/-- The body of `POST /upload-tracking/get-status` (`GetUploadStatusRequest` in
`data-contracts.ts`): only the receipt keys, no user id field. -/
structure GetUploadStatusRequest where
  receiptKeys : List String
deriving DecidableEq, Repr

/-- The upload-tracking table. -/
abbrev UploadLedger := List UploadRecord

/-- A row matches the ledger key `(user_id, receipt_key)`. -/
def keyMatches (uid key : String) (r : UploadRecord) : Bool :=
  r.userId == uid && r.receiptKey == key

/-- The field update applied by `mark_uploaded` to the existing row: `uploaded`,
`upload_timestamp`, `destination_paths`, `metadata`, `source_type` and
`updated_at` are replaced; the key and `created_at` are kept. -/
def updateRow (req : MarkUploadedRequest) (now : Nat) (r : UploadRecord) : UploadRecord :=
  { r with uploadedToDropbox := true, uploadTimestamp := some now,
           dropboxPaths := req.dropboxPaths, receiptMetadata := req.receiptMetadata,
           sourceType := req.sourceType, updatedAt := now }

/-- The fresh row inserted by `mark_uploaded` when no row for the key exists. -/
def newRow (uid : String) (req : MarkUploadedRequest) (now : Nat) : UploadRecord :=
  { userId := uid, receiptKey := req.receiptKey, uploadedToDropbox := true,
    uploadTimestamp := some now, dropboxPaths := req.dropboxPaths,
    receiptMetadata := req.receiptMetadata, sourceType := req.sourceType,
    createdAt := now, updatedAt := now }

/-- Modelled from the spec: `mark_uploaded` upserts the row keyed
`(user_id, receipt_key)` — the user id comes from the Identity Resolver, not the
request — setting `uploaded = true`, `upload_timestamp = now`, and replacing
`destination_paths` and `metadata` with the request's values (spec 4.5). -/
def markUploaded (led : UploadLedger) (uid : String) (req : MarkUploadedRequest)
    (now : Nat) : UploadLedger :=
  if led.any (keyMatches uid req.receiptKey) then
    led.map (fun r => if keyMatches uid req.receiptKey r then updateRow req now r else r)
  else
    led ++ [newRow uid req now]

/-- Modelled from the spec: `get_status` point lookup by `(user_id, receipt_key)`
(spec 4.5). -/
def getStatus (led : UploadLedger) (uid key : String) : Option UploadRecord :=
  led.find? (keyMatches uid key)

/-- Modelled from the spec: `get_status_batch` returns one entry per requested key
that has a row; keys with no row are simply absent from the result (spec 4.5). -/
def getStatusBatch (led : UploadLedger) (uid : String) (req : GetUploadStatusRequest) :
    List (String × UploadRecord) :=
  req.receiptKeys.filterMap (fun k => (getStatus led uid k).map (fun r => (k, r)))

/-- Modelled from the spec: `list` enumerates the caller's own rows, filtered by
the uploaded / not-uploaded flags (spec 4.5). -/
def listLedger (led : UploadLedger) (uid : String) (incUploaded incNotUploaded : Bool) :
    UploadLedger :=
  led.filter (fun r => r.userId == uid &&
    ((incUploaded && r.uploadedToDropbox) || (incNotUploaded && !r.uploadedToDropbox)))

/-- Number of ledger rows bearing the key `(uid, key)`. -/
def countKey (led : UploadLedger) (uid key : String) : Nat :=
  (led.filter (keyMatches uid key)).length

/-- The folder-preference table: `user_id` maps to `folder_path`. -/
abbrev FolderPrefs := List (String × String)

/-- Modelled from the spec: FolderPreference `get` returns the stored path, or the
schema's fixed default when no row exists (spec 4.4, SQL default). -/
def getFolder (fp : FolderPrefs) (uid : String) : String :=
  match fp.find? (fun p => p.1 == uid) with
  | some p => p.2
  | none => folderSchemaDefault

/-- Modelled from the spec: FolderPreference `put` upserts by `user_id`
(spec 4.4). -/
def putFolder (fp : FolderPrefs) (uid path : String) : FolderPrefs :=
  (uid, path) :: fp.filter (fun p => p.1 != uid)

/-- A concrete mark-uploaded request used in closed statements. -/
def sampleReq : MarkUploadedRequest :=
  { receiptKey := "msg1_a.pdf", dropboxPaths := ["/Smart Receipts/a.pdf"],
    receiptMetadata := none, sourceType := some "gmail_attachment" }

/-! ## Claims C8, C9, C10 -/

theorem jsEndsWith_append_self (e pat : String) :
    jsEndsWith (e ++ pat) pat = true := by
  unfold jsEndsWith
  rw [String.data_append]
  simp [List.isSuffixOf]

/-- C10: the two Gmail receipt-key schemes collide: for every email id `e`, the
key of an attachment literally named "body" equals the key of `e`'s body-only
receipt, and the upload flow classifies that attachment's source type as
"gmail_body" because classification looks only at the "_body" suffix. -/
theorem gmail_key_schemes_collide :
    (∀ e : String, gmailAttachmentKey e "body" = gmailBodyKey e)
    ∧ (∀ e : String, gmailSourceType (gmailAttachmentKey e "body") = "gmail_body") := by
  have hkey : ∀ e : String, gmailAttachmentKey e "body" = gmailBodyKey e := by
    intro e
    show e ++ "_" ++ "body" = e ++ "_body"
    rw [String.append_assoc]
    rfl
  refine ⟨hkey, fun e => ?_⟩
  rw [hkey e]
  unfold gmailSourceType gmailBodyKey
  rw [jsEndsWith_append_self]
  rfl

/-- C8 counterexample: the direct-upload receipt key is not stable across two
submission runs over the same input — the same file processed at two adjacent
clock values (same random draw) receives two different keys. -/
theorem upload_key_not_stable :
    processFileKey sampleUpload 1700000000000 "0.5" ≠
      processFileKey sampleUpload 1700000000001 "0.5" := by
  decide

/-- C8 amended: for Gmail-derived receipts the key is a deterministic function of
the email id and attachment name (or the body sentinel), but the direct-upload key
is built only from the clock and a random draw — it does not depend on the
submitted file at all, so two runs over the same input agree only when clock and
draw coincide (and concretely differ at adjacent clock values). -/
theorem upload_key_ignores_file :
    (∀ (f g : FileInput) (now : Nat) (r : String),
        processFileKey f now r = processFileKey g now r)
    ∧ (∀ (f : FileInput) (now : Nat) (r : String),
        processFileKey f now r = uploadFileId now r)
    ∧ processFileKey sampleUpload 1000 "0.5" ≠ processFileKey sampleUpload 1001 "0.5" := by
  refine ⟨fun _ _ _ _ => rfl, fun _ _ _ => rfl, by decide⟩

/-- C9: the Upload Receipts page's local default folder path disagrees with the
stored-schema default: `'/Smart_Receipts'` is not the schema's
`'/Smart Receipts'`. -/
theorem upload_page_default_mismatch :
    uploadPageLocalDefault ≠ folderSchemaDefault := by
  decide

/-! ## Shared list helper lemmas -/

theorem find?_filter_imp {α : Type} (l : List α) (p q : α → Bool)
    (h : ∀ a, p a = true → q a = true) :
    (l.filter q).find? p = l.find? p := by
  induction l with
  | nil => rfl
  | cons a l ih =>
    cases hq : q a with
    | true =>
      cases hp : p a with
      | true => simp [List.filter, hq, List.find?, hp]
      | false => simp [List.filter, hq, List.find?, hp, ih]
    | false =>
      have hp : p a = false := by
        cases hpa : p a with
        | true => rw [h a hpa] at hq; cases hq
        | false => rfl
      simp [List.filter, hq, List.find?, hp, ih]

theorem find?_filter_none {α : Type} (l : List α) (p q : α → Bool)
    (h : ∀ a, q a = true → p a = false) :
    (l.filter q).find? p = none := by
  rw [List.find?_eq_none]
  intro x hx
  rw [List.mem_filter] at hx
  simp [h x hx.2]

theorem find?_map_comm {α : Type} (f : α → α) (p : α → Bool) (l : List α)
    (h : ∀ a, p (f a) = p a) :
    (l.map f).find? p = (l.find? p).map f := by
  induction l with
  | nil => rfl
  | cons a l ih =>
    cases hp : p a with
    | true => simp [List.find?, h a, hp]
    | false => simp [List.find?, h a, hp, ih]

theorem map_id_of_mem {α : Type} (l : List α) (f : α → α) (h : ∀ a ∈ l, f a = a) :
    l.map f = l := by
  induction l with
  | nil => rfl
  | cons a l ih =>
    have ha : f a = a := h a (by simp)
    simp [ha, ih fun b hb => h b (by simp [hb])]

/-! ## Claim C1: Identity Resolver never yields a shared or default identity -/

/-- C1: the Identity Resolver yields an identity only when it is verified against
the configured issuer's signing material — so there is no input under which it
yields a shared or default identity value — and a missing or misconfigured
verifier rejects every request outright. -/
theorem identity_verified_or_rejected :
    (∀ (cfg : Option AuthConfig) (cred : Option String) (uid : String),
        resolveIdentity cfg cred = .ok uid →
          ∃ c t, cfg = some c ∧ cred = some t ∧ c.verify t = some uid)
    ∧ (∀ cred, resolveIdentity none cred = .unauthenticated) := by
  constructor
  · intro cfg cred uid h
    match cfg, cred with
    | none, _ => exact absurd h (by simp [resolveIdentity])
    | some c, none => exact absurd h (by simp [resolveIdentity])
    | some c, some t =>
      simp only [resolveIdentity] at h
      cases hv : c.verify t with
      | none => rw [hv] at h; cases h
      | some s =>
        rw [hv] at h
        cases h
        exact ⟨c, t, rfl, rfl, hv⟩
  · intro cred; rfl

/-- C1 witness: on a concretely configured verifier and its matching credential, the
resolved identity "alice" is indeed backed by a successful verification. -/
theorem identity_verified_witness :
    ∃ c t, (some sampleCfg : Option AuthConfig) = some c
      ∧ (some "token-alice" : Option String) = some t ∧ c.verify t = some "alice" :=
  identity_verified_or_rejected.1 (some sampleCfg) (some "token-alice") "alice" (by decide)

/-! ## Claims C3 and C4: CSRF State Ledger -/

theorem lookupState_filter_self (l : OAuthLedger) (tok : String) :
    lookupState (l.filter fun r' => r'.stateToken != tok) tok = none := by
  apply find?_filter_none
  intro a ha
  simp only [bne_iff_ne, ne_eq, decide_eq_true_eq] at ha
  simp [ha]

/-- C3: issuing a state token for `u` and immediately consuming it yields `u`'s id
and deletes the row, and a second consume of the same token (at any later time)
returns `NotFound`. -/
theorem issue_consume_single_use (st : OAuthLedger) (u tok : String) (now now2 : Nat) :
    (consume (issue st tok u now) tok now).1 = some u
    ∧ lookupState (consume (issue st tok u now) tok now).2 tok = none
    ∧ (consume (consume (issue st tok u now) tok now).2 tok now2).1 = none := by
  have hfind : lookupState (issue st tok u now) tok = some ⟨tok, u, now⟩ := by
    simp [lookupState, issue, List.find?]
  have hc : consume (issue st tok u now) tok now
      = (some u, (issue st tok u now).filter fun r' => r'.stateToken != tok) := by
    simp [consume, hfind, Nat.sub_self]
  rw [hc]
  refine ⟨rfl, lookupState_filter_self _ tok, ?_⟩
  simp [consume, lookupState_filter_self]

/-- C4: consuming a token whose age exceeds the one-hour window returns `NotFound`
by a read-time comparison, while the expired row physically remains in the table
(the sweep has not run). -/
theorem consume_expired_notfound (st : OAuthLedger) (tok : String) (now : Nat)
    (r : OAuthState) (hfind : lookupState st tok = some r)
    (hexp : expiryWindow < now - r.createdAt) :
    (consume st tok now).1 = none ∧ (consume st tok now).2 = st := by
  simp [consume, hfind, hexp]

/-- C4 witness: a token issued at time 0 and consumed at time 4000 (past the
3600-second window) is refused while its row is still present. -/
theorem consume_expired_witness :
    (consume [⟨"t1", "bob", 0⟩] "t1" 4000).1 = none
    ∧ (consume [⟨"t1", "bob", 0⟩] "t1" 4000).2 = [⟨"t1", "bob", 0⟩] :=
  consume_expired_notfound [⟨"t1", "bob", 0⟩] "t1" 4000 ⟨"t1", "bob", 0⟩ (by decide)
    (by decide)

/-! ## Claim C5: callback fails closed and forged state does not burn the real token -/

theorem consume_fst_none (st : OAuthLedger) (tok : String) (now : Nat)
    (h : (consume st tok now).1 = none) : consume st tok now = (none, st) := by
  unfold consume at h ⊢
  cases hf : lookupState st tok with
  | none => rfl
  | some r =>
    rw [hf] at h
    by_cases hi : expiryWindow < now - r.createdAt
    · simp [hi]
    · simp [hi] at h

/-- C5: a callback whose state token fails `consume` aborts without contacting the
token endpoint and without touching any credential; and in the forged-state
scenario — token `T` issued for `u`, a callback arriving with an unrelated `Tx` —
the forged callback is rejected with no exchange and no credential write, the
ledger is untouched, a later legitimate callback with `T` connects `u` and stores
the exchanged credential, and a further replay of `T` is rejected without another
exchange or credential change. -/
theorem callback_fail_closed_replay
    (st : OAuthLedger) (cs : CredStore) (code T Tx u blob : String)
    (now now2 now3 : Nat) (exchange : String → Option String)
    (hforged : lookupState (issue st T u now) Tx = none)
    (hex : exchange code = some blob)
    (hage : now2 - now ≤ expiryWindow) :
    (∀ (st' : OAuthLedger) (cs' : CredStore) (code' tok' : String) (now' : Nat)
        (ex' : String → Option String), (consume st' tok' now').1 = none →
        callback st' cs' code' tok' now' ex' = ⟨none, false, st', cs'⟩)
    ∧ callback (issue st T u now) cs code Tx now exchange
        = ⟨none, false, issue st T u now, cs⟩
    ∧ (callback (issue st T u now) cs code T now2 exchange).connectedUser = some u
    ∧ getCred (callback (issue st T u now) cs code T now2 exchange).creds u = some blob
    ∧ (callback (callback (issue st T u now) cs code T now2 exchange).ledger
          (callback (issue st T u now) cs code T now2 exchange).creds
          code T now3 exchange)
        = ⟨none, false, (callback (issue st T u now) cs code T now2 exchange).ledger,
           (callback (issue st T u now) cs code T now2 exchange).creds⟩ := by
  have hgen : ∀ (st' : OAuthLedger) (cs' : CredStore) (code' tok' : String) (now' : Nat)
      (ex' : String → Option String), (consume st' tok' now').1 = none →
      callback st' cs' code' tok' now' ex' = ⟨none, false, st', cs'⟩ := by
    intro st' cs' code' tok' now' ex' h
    have hc := consume_fst_none st' tok' now' h
    simp [callback, hc]
  have hfind : lookupState (issue st T u now) T = some ⟨T, u, now⟩ := by
    simp [lookupState, issue, List.find?]
  have hcT : consume (issue st T u now) T now2
      = (some u, (issue st T u now).filter fun r' => r'.stateToken != T) := by
    simp [consume, hfind, Nat.not_lt.mpr hage]
  have ho2 : callback (issue st T u now) cs code T now2 exchange
      = ⟨some u, true, (issue st T u now).filter fun r' => r'.stateToken != T,
         putCred cs u blob⟩ := by
    simp [callback, hcT, hex]
  refine ⟨hgen, ?_, ?_, ?_, ?_⟩
  · have hcTx : consume (issue st T u now) Tx now = (none, issue st T u now) := by
      simp [consume, hforged]
    simp [callback, hcTx]
  · rw [ho2]
  · rw [ho2]
    simp [getCred, putCred, List.find?]
  · rw [ho2]
    apply hgen
    have := lookupState_filter_self (issue st T u now) T
    simp [consume, this]

/-- Token-endpoint behaviour used in closed statements: one authorization code
exchanges for one refresh token. -/
def demoExchange : String → Option String :=
  fun c => if c = "code1" then some "refresh1" else none

/-- C5 witness: the forged-state scenario run concretely — forged "TX" is rejected
without exchange, the genuine "T" then connects "alice" and stores the credential,
and replaying "T" afterwards is rejected. -/
theorem callback_fail_closed_replay_witness :
    callback (issue [] "T" "alice" 0) [] "code1" "TX" 0 demoExchange
      = ⟨none, false, issue [] "T" "alice" 0, []⟩
    ∧ (callback (issue [] "T" "alice" 0) [] "code1" "T" 10 demoExchange).connectedUser
      = some "alice"
    ∧ getCred (callback (issue [] "T" "alice" 0) [] "code1" "T" 10 demoExchange).creds
        "alice" = some "refresh1" := by
  have h := callback_fail_closed_replay [] [] "code1" "T" "TX" "alice" "refresh1"
    0 10 20 demoExchange (by decide) (by decide) (by decide)
  exact ⟨h.2.1, h.2.2.1, h.2.2.2.1⟩

/-! ## Claim C2: per-user isolation of every store -/

theorem find?_map_fix {α : Type} (f : α → α) (p : α → Bool) (l : List α)
    (h1 : ∀ a, p (f a) = p a) (h2 : ∀ a, p a = true → f a = a) :
    (l.map f).find? p = l.find? p := by
  rw [find?_map_comm f p l h1]
  cases hf : l.find? p with
  | none => rfl
  | some a => simp [h2 a (List.find?_some hf)]

theorem keyMatches_updateRow (uid key : String) (req : MarkUploadedRequest)
    (now : Nat) (r : UploadRecord) :
    keyMatches uid key (updateRow req now r) = keyMatches uid key r := rfl

theorem keyMatches_eq (uid key : String) (r : UploadRecord)
    (h : keyMatches uid key r = true) : r.userId = uid ∧ r.receiptKey = key := by
  simpa [keyMatches, Bool.and_eq_true, beq_iff_eq] using h

/-- C2: every core operation is isolated by the resolver-supplied user id.
`mark_uploaded` as `u1` leaves every `(u2, k)` lookup unchanged; `get_status`,
`get_status_batch` and `list` only ever return rows keyed by the caller;
credential and folder-preference writes for `u1` leave `u2`'s reads unchanged;
and every row `mark_uploaded` writes carries the resolver-supplied user id, since
the request bodies contain no user id field. -/
theorem per_user_isolation :
    (∀ (led : UploadLedger) (u1 u2 : String) (req : MarkUploadedRequest) (now : Nat)
        (k : String), u1 ≠ u2 →
        getStatus (markUploaded led u1 req now) u2 k = getStatus led u2 k)
    ∧ (∀ (led : UploadLedger) (u k : String) (r : UploadRecord),
        getStatus led u k = some r → r.userId = u)
    ∧ (∀ (led : UploadLedger) (u : String) (req : GetUploadStatusRequest)
        (kr : String × UploadRecord), kr ∈ getStatusBatch led u req → kr.2.userId = u)
    ∧ (∀ (led : UploadLedger) (u : String) (a b : Bool) (r : UploadRecord),
        r ∈ listLedger led u a b → r.userId = u)
    ∧ (∀ (cs : CredStore) (u1 u2 blob : String), u1 ≠ u2 →
        getCred (putCred cs u1 blob) u2 = getCred cs u2)
    ∧ (∀ (fp : FolderPrefs) (u1 u2 path : String), u1 ≠ u2 →
        getFolder (putFolder fp u1 path) u2 = getFolder fp u2)
    ∧ (∀ (led : UploadLedger) (uid : String) (req : MarkUploadedRequest) (now : Nat)
        (r : UploadRecord), r ∈ markUploaded led uid req now →
        r ∈ led ∨ r.userId = uid) := by
  have hstatus : ∀ (led : UploadLedger) (u k : String) (r : UploadRecord),
      getStatus led u k = some r → r.userId = u := by
    intro led u k r h
    exact (keyMatches_eq u k r (List.find?_some h)).1
  refine ⟨?_, hstatus, ?_, ?_, ?_, ?_, ?_⟩
  · intro led u1 u2 req now k hne
    unfold markUploaded
    by_cases hany : led.any (keyMatches u1 req.receiptKey) = true
    · simp only [hany, if_true]
      unfold getStatus
      apply find?_map_fix
      · intro a
        by_cases hc : keyMatches u1 req.receiptKey a = true
        · simp [hc, keyMatches_updateRow]
        · simp [hc]
      · intro a ha
        have h2 := (keyMatches_eq u2 k a ha).1
        have : keyMatches u1 req.receiptKey a = false := by
          cases hc : keyMatches u1 req.receiptKey a with
          | false => rfl
          | true => exact absurd ((keyMatches_eq _ _ a hc).1.symm.trans h2) hne
        simp [this]
    · rw [if_neg hany]
      have hnew : keyMatches u2 k (newRow u1 req now) = false := by
        cases hc : keyMatches u2 k (newRow u1 req now) with
        | false => rfl
        | true =>
          have h2 : (newRow u1 req now).userId = u2 := (keyMatches_eq _ _ _ hc).1
          exact absurd h2 (by simpa [newRow] using hne)
      unfold getStatus
      rw [List.find?_append]
      simp [List.find?, hnew]
  · intro led u req kr hkr
    rcases List.mem_filterMap.mp hkr with ⟨k', _, hmap⟩
    rcases Option.map_eq_some'.mp hmap with ⟨r', hr', heq⟩
    have := hstatus led u k' r' hr'
    rw [← heq]
    exact this
  · intro led u a b r hr
    have hpred := (List.mem_filter.mp hr).2
    rw [Bool.and_eq_true] at hpred
    exact eq_of_beq hpred.1
  · intro cs u1 u2 blob hne
    unfold getCred putCred
    rw [List.find?]
    have : ((u1, blob).1 == u2) = false := by
      simpa using hne
    rw [this]
    rw [find?_filter_imp]
    intro a ha
    have : a.1 = u2 := eq_of_beq ha
    simp [this, hne.symm]
  · intro fp u1 u2 path hne
    unfold getFolder putFolder
    rw [List.find?]
    have h0 : ((u1, path).1 == u2) = false := by simpa using hne
    rw [h0]
    rw [find?_filter_imp]
    intro a ha
    have : a.1 = u2 := eq_of_beq ha
    simp [this, hne.symm]
  · intro led uid req now r hr
    unfold markUploaded at hr
    by_cases hany : led.any (keyMatches uid req.receiptKey) = true
    · rw [if_pos hany] at hr
      rcases List.mem_map.mp hr with ⟨a, ha, heq⟩
      by_cases hc : keyMatches uid req.receiptKey a = true
      · right
        rw [← heq]
        simp only [hc, if_true, keyMatches_updateRow]
        exact ((keyMatches_eq _ _ a hc).1 : a.userId = uid)
      · left
        rw [← heq]
        simp [hc, ha]
    · rw [if_neg hany] at hr
      rcases List.mem_append.mp hr with h | h
      · exact Or.inl h
      · right
        rw [List.mem_singleton.mp h]
        rfl

/-- C2 witness: marking a receipt uploaded as "u1" leaves "u2"'s lookup of the same
key unchanged. -/
theorem per_user_isolation_witness :
    getStatus (markUploaded [] "u1" sampleReq 5) "u2" "msg1_a.pdf"
      = getStatus [] "u2" "msg1_a.pdf" :=
  per_user_isolation.1 [] "u1" "u2" sampleReq 5 "msg1_a.pdf" (by decide)

/-! ## Claim C6: mark_uploaded upserts and replaces -/

theorem keyMatches_newRow (uid : String) (req : MarkUploadedRequest) (now : Nat) :
    keyMatches uid req.receiptKey (newRow uid req now) = true := by
  simp [keyMatches, newRow]

theorem countKey_markUploaded (led : UploadLedger) (uid : String)
    (req : MarkUploadedRequest) (now : Nat)
    (h : countKey led uid req.receiptKey ≤ 1) :
    countKey (markUploaded led uid req now) uid req.receiptKey = 1 := by
  unfold markUploaded
  by_cases hany : led.any (keyMatches uid req.receiptKey) = true
  · rw [if_pos hany]
    unfold countKey
    rw [List.filter_map, List.length_map]
    have hcong : led.filter ((keyMatches uid req.receiptKey) ∘
        (fun r => if keyMatches uid req.receiptKey r then updateRow req now r else r))
        = led.filter (keyMatches uid req.receiptKey) := by
      apply List.filter_congr
      intro x _
      by_cases hc : keyMatches uid req.receiptKey x = true
      · simp [Function.comp, hc, keyMatches_updateRow]
      · simp [Function.comp, hc]
    rw [hcong]
    rcases List.any_eq_true.mp hany with ⟨x, hx, hpx⟩
    have hmem : x ∈ led.filter (keyMatches uid req.receiptKey) :=
      List.mem_filter.mpr ⟨hx, hpx⟩
    have hpos : 0 < (led.filter (keyMatches uid req.receiptKey)).length :=
      List.length_pos.mpr (List.ne_nil_of_mem hmem)
    exact Nat.le_antisymm h hpos
  · rw [if_neg hany]
    unfold countKey
    rw [List.filter_append]
    have hall : ∀ x ∈ led, ¬ keyMatches uid req.receiptKey x = true := by
      simpa [List.any_eq_true] using hany
    have h0 : led.filter (keyMatches uid req.receiptKey) = [] :=
      List.filter_eq_nil_iff.mpr hall
    simp [h0, List.filter, keyMatches_newRow]

theorem getStatus_markUploaded_self (led : UploadLedger) (uid : String)
    (req : MarkUploadedRequest) (now : Nat) :
    ∃ r, getStatus (markUploaded led uid req now) uid req.receiptKey = some r
      ∧ r.uploadedToDropbox = true ∧ r.uploadTimestamp = some now
      ∧ r.dropboxPaths = req.dropboxPaths ∧ r.receiptMetadata = req.receiptMetadata
      ∧ r.sourceType = req.sourceType ∧ r.updatedAt = now := by
  unfold markUploaded getStatus
  by_cases hany : led.any (keyMatches uid req.receiptKey) = true
  · rw [if_pos hany]
    rw [find?_map_comm]
    · rcases List.any_eq_true.mp hany with ⟨x, hx, hpx⟩
      have hsome : (led.find? (keyMatches uid req.receiptKey)).isSome :=
        List.find?_isSome.mpr ⟨x, hx, hpx⟩
      rcases Option.isSome_iff_exists.mp hsome with ⟨r0, hr0⟩
      rw [hr0]
      have hp0 : keyMatches uid req.receiptKey r0 = true := List.find?_some hr0
      refine ⟨updateRow req now r0, ?_, rfl, rfl, rfl, rfl, rfl, rfl⟩
      simp [hp0]
    · intro a
      by_cases hc : keyMatches uid req.receiptKey a = true
      · simp [hc, keyMatches_updateRow]
      · simp [hc]
  · rw [if_neg hany]
    rw [List.find?_append]
    have hnone : led.find? (keyMatches uid req.receiptKey) = none := by
      rw [List.find?_eq_none]
      simpa [List.any_eq_true] using hany
    rw [hnone]
    refine ⟨newRow uid req now, ?_, rfl, rfl, rfl, rfl, rfl, rfl⟩
    simp [List.find?, keyMatches_newRow]

theorem markUploaded_matching_rows (led : UploadLedger) (uid : String)
    (req : MarkUploadedRequest) (now : Nat) (r : UploadRecord)
    (hr : r ∈ markUploaded led uid req now)
    (hk : keyMatches uid req.receiptKey r = true) :
    updateRow req now r = r := by
  unfold markUploaded at hr
  by_cases hany : led.any (keyMatches uid req.receiptKey) = true
  · rw [if_pos hany] at hr
    rcases List.mem_map.mp hr with ⟨a, _, heq⟩
    by_cases hc : keyMatches uid req.receiptKey a = true
    · rw [if_pos hc] at heq
      rw [← heq]
      rfl
    · rw [if_neg hc] at heq
      rw [← heq] at hk
      exact absurd hk hc
  · rw [if_neg hany] at hr
    rcases List.mem_append.mp hr with h | h
    · have hall : ∀ x ∈ led, ¬ keyMatches uid req.receiptKey x = true := by
        simpa [List.any_eq_true] using hany
      exact absurd hk (hall r h)
    · rw [List.mem_singleton.mp h]
      rfl

theorem markUploaded_idem (led : UploadLedger) (uid : String)
    (req : MarkUploadedRequest) (now : Nat) :
    markUploaded (markUploaded led uid req now) uid req now
      = markUploaded led uid req now := by
  rcases getStatus_markUploaded_self led uid req now with ⟨r, hr, -⟩
  have hany : (markUploaded led uid req now).any (keyMatches uid req.receiptKey) = true := by
    rw [List.any_eq_true]
    exact ⟨r, List.mem_of_find?_eq_some hr, List.find?_some hr⟩
  conv_lhs => rw [markUploaded.eq_def]
  rw [if_pos hany]
  apply map_id_of_mem
  intro a ha
  by_cases hc : keyMatches uid req.receiptKey a = true
  · rw [if_pos hc]
    exact markUploaded_matching_rows led uid req now a ha hc
  · rw [if_neg hc]

/-- C6: two `mark_uploaded` calls for the same `(u, k)` leave exactly one ledger
row for that key, whose destination paths and metadata are the second call's
values — replaced, never merged — and a repeat call with identical arguments is
idempotent. -/
theorem mark_uploaded_replaces (led : UploadLedger) (u k : String)
    (p1 p2 : List String) (m1 m2 : Option Metadata) (s1 s2 : Option String)
    (t1 t2 : Nat) (hdup : countKey led u k ≤ 1) :
    ∀ led2, led2 = markUploaded (markUploaded led u ⟨k, p1, m1, s1⟩ t1)
        u ⟨k, p2, m2, s2⟩ t2 →
      countKey led2 u k = 1
      ∧ (getStatus led2 u k).map (fun r => r.dropboxPaths) = some p2
      ∧ (getStatus led2 u k).map (fun r => r.receiptMetadata) = some m2
      ∧ markUploaded led2 u ⟨k, p2, m2, s2⟩ t2 = led2 := by
  intro led2 hled2
  subst hled2
  have h1 : countKey (markUploaded led u ⟨k, p1, m1, s1⟩ t1) u k ≤ 1 :=
    le_of_eq (countKey_markUploaded led u ⟨k, p1, m1, s1⟩ t1 hdup)
  rcases getStatus_markUploaded_self (markUploaded led u ⟨k, p1, m1, s1⟩ t1)
      u ⟨k, p2, m2, s2⟩ t2 with ⟨r, hr, -, -, hpaths, hmeta, -, -⟩
  have hr' : getStatus (markUploaded (markUploaded led u ⟨k, p1, m1, s1⟩ t1)
      u ⟨k, p2, m2, s2⟩ t2) u k = some r := hr
  refine ⟨countKey_markUploaded _ u ⟨k, p2, m2, s2⟩ t2 h1, ?_, ?_,
    markUploaded_idem _ u ⟨k, p2, m2, s2⟩ t2⟩
  · rw [hr']
    simp [hpaths]
  · rw [hr']
    simp [hmeta]

/-- C6 witness: on the empty ledger, marking key "k" with paths ["a"] and then
["b"] leaves one row whose paths are ["b"]. -/
theorem mark_uploaded_replaces_witness :
    countKey (markUploaded (markUploaded [] "u1" ⟨"k", ["a"], none, none⟩ 1)
        "u1" ⟨"k", ["b"], none, none⟩ 2) "u1" "k" = 1
    ∧ (getStatus (markUploaded (markUploaded [] "u1" ⟨"k", ["a"], none, none⟩ 1)
        "u1" ⟨"k", ["b"], none, none⟩ 2) "u1" "k").map (fun r => r.dropboxPaths)
      = some ["b"] := by
  have h := mark_uploaded_replaces [] "u1" "k" ["a"] ["b"] none none none none 1 2
    (by decide) _ rfl
  exact ⟨h.1, h.2.1⟩

/-! ## Claim C7: batch status lookup returns exactly the present keys -/

/-- C7: the domain of `get_status_batch(u, ks)` is exactly the subset of `ks` that
have a ledger row for `u`: the returned keys are the present ones in order, every
returned entry is a genuine row, and keys without a row are absent rather than
paired with a placeholder. -/
theorem get_status_batch_domain (led : UploadLedger) (u : String)
    (req : GetUploadStatusRequest) :
    (getStatusBatch led u req).map Prod.fst
      = req.receiptKeys.filter (fun k => (getStatus led u k).isSome)
    ∧ (∀ (k : String) (r : UploadRecord), (k, r) ∈ getStatusBatch led u req →
        k ∈ req.receiptKeys ∧ getStatus led u k = some r)
    ∧ (∀ k : String, getStatus led u k = none →
        ∀ r : UploadRecord, (k, r) ∉ getStatusBatch led u req) := by
  have hmem : ∀ (k : String) (r : UploadRecord), (k, r) ∈ getStatusBatch led u req →
      k ∈ req.receiptKeys ∧ getStatus led u k = some r := by
    intro k r h
    rcases List.mem_filterMap.mp h with ⟨k', hk', hmap⟩
    rcases Option.map_eq_some'.mp hmap with ⟨r', hr', heq⟩
    rw [Prod.mk.injEq] at heq
    obtain ⟨h1, h2⟩ := heq
    subst h1
    subst h2
    exact ⟨hk', hr'⟩
  refine ⟨?_, hmem, ?_⟩
  · clear hmem
    rcases req with ⟨keys⟩
    unfold getStatusBatch
    induction keys with
    | nil => rfl
    | cons k ks ih =>
      cases hs : getStatus led u k with
      | none => simpa [List.filterMap_cons, List.filter_cons, hs] using ih
      | some r => simpa [List.filterMap_cons, List.filter_cons, hs] using ih
  · intro k hnone r hr
    have h2 := (hmem k r hr).2
    rw [hnone] at h2
    cases h2

/-- A concrete ledger row used in closed statements. -/
def demoRow : UploadRecord :=
  { userId := "alice", receiptKey := "k2", uploadedToDropbox := true,
    uploadTimestamp := some 1, dropboxPaths := ["/Smart Receipts/x.pdf"],
    receiptMetadata := none, sourceType := some "upload", createdAt := 1,
    updatedAt := 1 }

/-- C7 witness: on a ledger holding only "k2", the batch entry for "k2" is one of
the requested keys and is backed by that genuine row. -/
theorem get_status_batch_witness :
    "k2" ∈ (GetUploadStatusRequest.mk ["k1", "k2", "k3"]).receiptKeys
    ∧ getStatus [demoRow] "alice" "k2" = some demoRow :=
  (get_status_batch_domain [demoRow] "alice" ⟨["k1", "k2", "k3"]⟩).2.1 "k2" demoRow
    (by decide)

end SmartReceipts
